import Mathlib

/-!
Shallow embedding of the AI news-generation pipeline of this repository
(`src/backend/src/infrastructure/ai/agents/news_generation_agent.py`,
`src/backend/src/infrastructure/ai/schemas/news_schemas.py`,
`src/backend/src/application/use_cases/news/generate_ai_news_use_case.py`,
`src/backend/src/application/use_cases/news/create_news_use_case.py`,
`src/backend/src/domain/entities/news_item.py`).

Python strings are modelled as lists of Unicode code points (`List Nat`);
Python exceptions become `Except`; the impure network call of one retry
attempt is modelled by passing the attempt's client outcome
(`Except ClientError Str`) as an explicit argument; wall-clock timestamps
are omitted from the records (no claim mentions them).
-/

set_option autoImplicit false
set_option maxRecDepth 100000
set_option maxHeartbeats 1600000

namespace AINews

/-- Python `str`, modelled as the list of Unicode code points. -/
abbrev Str := List Nat

/-- Code points of a Lean string literal, to transcribe the Python literals. -/
def str (s : String) : Str := s.toList.map Char.toNat

/-- Python whitespace class used by `str.strip` / `\s` (ASCII part). -/
def isWs (c : Nat) : Bool :=
  c = 32 || c = 9 || c = 10 || c = 13 || c = 11 || c = 12

/-- ASCII `str.lower` on one code point. -/
def lowerC (c : Nat) : Nat := if 65 ≤ c ∧ c ≤ 90 then c + 32 else c

/-- ASCII `str.upper` on one code point. -/
def upperC (c : Nat) : Nat := if 97 ≤ c ∧ c ≤ 122 then c - 32 else c

/-- Python `s.lower()`. -/
def lowerS (s : Str) : Str := s.map lowerC

/-- Python `s.upper()`. -/
def upperS (s : Str) : Str := s.map upperC

/-- Python `needle in hay` (substring containment; empty needle matches). -/
def containsSub (needle : Str) : Str → Bool
  | [] => needle.isEmpty
  | c :: t => needle.isPrefixOf (c :: t) || containsSub needle t

/-- Drop matching code points from the right end. -/
def dropTrail (p : Nat → Bool) (s : Str) : Str := (s.reverse.dropWhile p).reverse

/-- Python `s.strip()` (whitespace at both ends). -/
def pyStrip (s : Str) : Str := dropTrail isWs (s.dropWhile isWs)

/-- Python `s.strip(chars)` for a given character class. -/
def pyStripChars (p : Nat → Bool) (s : Str) : Str := dropTrail p (s.dropWhile p)

/-- Python `s.split(sep)` for a one-character separator (keeps empty pieces). -/
def splitOnChar (d : Nat) (s : Str) : List Str :=
  s.foldr
    (fun c acc =>
      match acc with
      | [] => [[c]]
      | g :: gs => if c = d then [] :: g :: gs else (c :: g) :: gs)
    [[]]

/-- Python `s.split()` (split on whitespace runs, dropping empty words). -/
def pyWords (s : Str) : List Str :=
  ((s.foldr
    (fun c acc =>
      match acc with
      | [] => [[c]]
      | g :: gs => if isWs c then [] :: g :: gs else (c :: g) :: gs)
    [[]]).filter (fun w => ¬ w.isEmpty))

/-- Python `' '.join(parts)`. -/
def joinSpace : List Str → Str
  | [] => []
  | [s] => s
  | s :: rest => s ++ [32] ++ joinSpace rest

/-- Decimal digit predicate, mirroring the regex class `\d` (ASCII). -/
def isDigit (c : Nat) : Bool := 48 ≤ c && c ≤ 57

/-- Code points of `str(n)` for a natural number. -/
def natStr (n : Nat) : Str := str (Nat.repr n)

/-- `AINewsCategory` from `news_schemas.py`, in declaration order. -/
inductive AINewsCategory
  | breakthrough
  | research
  | product_launch
  | industry_update
  | policy_regulation
  | tutorial_guide
  | opinion_analysis
deriving DecidableEq, Fintype

/-- The seven categories, in enumeration declaration order (the insertion
order of the `patterns` dict in `_categorize_news`). -/
def catList : List AINewsCategory :=
  [.breakthrough, .research, .product_launch, .industry_update,
   .policy_regulation, .tutorial_guide, .opinion_analysis]

/-- Declaration index of a category inside `catList`. -/
def catIdx : AINewsCategory → Nat
  | .breakthrough => 0
  | .research => 1
  | .product_launch => 2
  | .industry_update => 3
  | .policy_regulation => 4
  | .tutorial_guide => 5
  | .opinion_analysis => 6

/-- The per-category keyword lists of `_categorize_news`. -/
def patterns : AINewsCategory → List Str
  | .breakthrough => [str "breakthrough", str "discovery", str "novel", str "first-ever"]
  | .research => [str "paper", str "study", str "research", str "arxiv", str "journal"]
  | .product_launch => [str "launch", str "release", str "announce", str "unveil", str "introduce"]
  | .industry_update => [str "partner", str "acquisition", str "funding", str "investment"]
  | .policy_regulation => [str "regulation", str "policy", str "law", str "compliance", str "ethics"]
  | .tutorial_guide => [str "how-to", str "tutorial", str "guide", str "learn", str "implement"]
  | .opinion_analysis => [str "analysis", str "opinion", str "perspective", str "future", str "impact"]

/-- `sum(1 for keyword in keywords if keyword in content_lower)`:
number of the category's keywords occurring in the lowered content. -/
def score (content : Str) (c : AINewsCategory) : Nat :=
  (patterns c).countP (fun kw => containsSub kw (lowerS content))

/-- The `scores` dict plus `max(scores, key=scores.get)` of `_categorize_news`:
only categories with positive score enter the dict, and Python's `max` keeps
the first key (in insertion order) among tied maxima. -/
def bestOf (content : Str) : List AINewsCategory → Option (AINewsCategory × Nat)
  | [] => none
  | c :: rest =>
    if score content c = 0 then bestOf content rest
    else
      match bestOf content rest with
      | none => some (c, score content c)
      | some (c2, s2) =>
        if s2 > score content c then some (c2, s2) else some (c, score content c)

/-- `NewsGenerationAgent._categorize_news`. -/
def categorizeNews (content : Str) : AINewsCategory :=
  match bestOf content catList with
  | some (c, _) => c
  | none => .industry_update

/-- `NewsGenerationAgent._generate_image_url`: keyword checks on the lowered
title choose a fixed reference image; otherwise a generic default is returned
(the `category_image_map` search terms are computed but unused by every
return path of the Python function). -/
def generateImageUrl (title : Str) (_category : AINewsCategory) : Str :=
  let tl := lowerS title
  if containsSub (str "medical") tl || containsSub (str "health") tl
      || containsSub (str "blood") tl || containsSub (str "injury") tl then
    str "https://images.unsplash.com/photo-1559757148-5c350d0d3c56?q=80&w=500&auto=format&fit=crop&ixlib=rb-4.0.3"
  else if containsSub (str "robot") tl || containsSub (str "robotics") tl then
    str "https://images.unsplash.com/photo-1485827404703-89b55fcc595e?q=80&w=500&auto=format&fit=crop&ixlib=rb-4.0.3"
  else if containsSub (str "nvidia") tl || containsSub (str "chip") tl
      || containsSub (str "infrastructure") tl then
    str "https://images.unsplash.com/photo-1518709268805-4e9042af2176?q=80&w=500&auto=format&fit=crop&ixlib=rb-4.0.3"
  else if containsSub (str "blockchain") tl || containsSub (str "clinical") tl
      || containsSub (str "trial") tl then
    str "https://images.unsplash.com/photo-1576091160550-2173dba999ef?q=80&w=500&auto=format&fit=crop&ixlib=rb-4.0.3"
  else if containsSub (str "research") tl || containsSub (str "study") tl then
    str "https://images.unsplash.com/photo-1582719471384-894fbb16e074?q=80&w=500&auto=format&fit=crop&ixlib=rb-4.0.3"
  else
    str "https://images.unsplash.com/photo-1677442136019-21780ecad995?q=80&w=500&auto=format&fit=crop&ixlib=rb-4.0.3"

/-- The `tech_terms` list of `_extract_metadata`. -/
def techTerms : List Str :=
  [str "LLM", str "GPT", str "transformer", str "neural network", str "deep learning",
   str "reinforcement learning", str "computer vision", str "NLP", str "AGI"]

/-- The `tags` component of `_extract_metadata`:
`[term.lower() for term in tech_terms if term.lower() in content.lower()]`
(the extracted dates and organizations are not consumed anywhere downstream). -/
def extractTags (content : Str) : List Str :=
  (techTerms.filter (fun t => containsSub (lowerS t) (lowerS content))).map lowerS

/-- `NewsSource` of `news_schemas.py`. -/
structure NewsSource where
  name : Str
  url : Option Str
  credibilityScore : Option ℚ
deriving DecidableEq

/-- `AIGeneratedNews` of `news_schemas.py` (the in-memory news candidate).
The stored `title` is the stripped title returned by `validate_title`;
the stored `tags` are the normalized tags returned by `validate_tags`.
`published_at` (a wall-clock timestamp) is omitted. -/
structure AIGeneratedNews where
  title : Str
  summary : Str
  content : Str
  category : AINewsCategory
  tags : List Str
  source : NewsSource
  link : Str
  imageUrl : Option Str
  relevanceScore : ℚ
deriving DecidableEq

/-- The `clickbait_patterns` list of `AIGeneratedNews.validate_title`
(`"You Won't Believe"`, `"SHOCKING"`, `"BREAKING"`; code point 39 is the
apostrophe). -/
def clickbaitPatterns : List Str :=
  [str "You Won" ++ [39] ++ str "t Believe", str "SHOCKING", str "BREAKING"]

/-- `pattern.upper() in v.upper()` for some clickbait pattern. -/
def hasClickbait (title : Str) : Bool :=
  clickbaitPatterns.any (fun p => containsSub (upperS p) (upperS title))

/-- Pydantic construction of `AIGeneratedNews`: the declared field
constraints (`min_length`/`max_length`, numeric ranges) and the two field
validators; a violated constraint raises, i.e. yields `.error`. -/
def mkAIGeneratedNews (title summary content : Str) (category : AINewsCategory)
    (tags : List Str) (source : NewsSource) (link : Str) (imageUrl : Option Str)
    (relevanceScore : ℚ) : Except Str AIGeneratedNews :=
  if title.length < 10 then .error (str "title too short")
  else if 200 < title.length then .error (str "title too long")
  else if hasClickbait title then .error (str "title contains clickbait pattern")
  else if summary.length < 50 then .error (str "summary too short")
  else if 500 < summary.length then .error (str "summary too long")
  else if content.length < 100 then .error (str "content too short")
  else if 2000 < content.length then .error (str "content too long")
  else if 10 < tags.length then .error (str "too many tags")
  else if (match source.credibilityScore with
           | some cs => decide (cs < 0) || decide (1 < cs)
           | none => false) then .error (str "credibility score out of range")
  else if relevanceScore < 0 ∨ 1 < relevanceScore then
    .error (str "relevance score out of range")
  else
    .ok
      { title := pyStrip title
        summary := summary
        content := content
        category := category
        tags := (tags.filter (fun t => ¬ (pyStrip t).isEmpty)).map
          (fun t => pyStrip (lowerS t))
        source := source
        link := link
        imageUrl := imageUrl
        relevanceScore := relevanceScore }

/-- The segment marker `"NEWS ITEM:"` as it appears in the code
(the presence test `"NEWS ITEM:" in ai_content` is case-sensitive). -/
def markerU : Str := str "NEWS ITEM:"

/-- The lowered marker, for the case-insensitive `re.split`. -/
def markerLower : Str := str "news item:"

/-- Does a case-insensitive occurrence of the marker start at the head? -/
def markerAt (t : Str) : Bool := lowerS (t.take 10) = markerLower

/-- `re.split(r'NEWS ITEM:\s*', ai_content, flags=re.IGNORECASE)` up to the
whitespace consumed by `\s*` (every piece is stripped immediately afterwards,
so consuming the whitespace inside the delimiter or inside the piece is
observationally equal).  The fuel argument makes the recursion structural;
`fuel = length` always suffices. -/
def splitCIAux : Nat → Str → List Str
  | 0, t => [t]
  | _ + 1, [] => [[]]
  | fuel + 1, c :: rest =>
    if markerAt (c :: rest) then
      [] :: splitCIAux fuel (List.drop 10 (c :: rest))
    else
      match splitCIAux fuel rest with
      | [] => [[c]]
      | s :: ss => (c :: s) :: ss

/-- Case-insensitive split on the `"NEWS ITEM:"` marker. -/
def splitCI (t : Str) : List Str := splitCIAux t.length t

/-- At this head position, does the regex alternative `\d+\.` match
(a maximal digit run followed by a dot)? -/
def numDotAt (t : Str) : Bool :=
  (t.dropWhile isDigit).head? = some 46

/-- Consume the matched `\d+\.\s*` delimiter. -/
def consumeNumDot (t : Str) : Str :=
  ((t.dropWhile isDigit).drop 1).dropWhile isWs

/-- `re.split(r'\n\n+|\d+\.\s*', ai_content)`: the fallback segmentation on
blank-line runs or numbered enumeration markers.  Leftmost match; the
blank-line alternative needs at least two newlines and consumes the whole
newline run; the enumeration alternative needs a digit run followed by a dot
and consumes trailing whitespace.  Fuel as in `splitCIAux`. -/
def fbSplitAux : Nat → Str → List Str
  | 0, t => [t]
  | _ + 1, [] => [[]]
  | fuel + 1, c :: rest =>
    if c = 10 ∧ rest.head? = some 10 then
      [] :: fbSplitAux fuel ((c :: rest).dropWhile (fun x => x = 10))
    else if isDigit c ∧ numDotAt (c :: rest) then
      [] :: fbSplitAux fuel (consumeNumDot (c :: rest))
    else
      match fbSplitAux fuel rest with
      | [] => [[c]]
      | s :: ss => (c :: s) :: ss

/-- Fallback split (no marker present in the text). -/
def fbSplit (t : Str) : List Str := fbSplitAux t.length t

/-- The segment list of `_parse_ai_response`: split on the marker when the
(case-sensitive) presence test succeeds, otherwise the fallback split; then
`[seg.strip() for seg in segments if seg.strip()]`. -/
def segmentsOf (text : Str) : List Str :=
  ((if containsSub markerU text then splitCI text else fbSplit text).map pyStrip).filter
    (fun s => ¬ s.isEmpty)

/-- One marker-introduced block of a provider response. -/
def markerBlock (s : Str) : Str := markerU ++ s

/-- A provider response that is exactly a concatenation of marker-introduced
blocks. -/
def blocksText (segs : List Str) : Str := (segs.map markerBlock).flatten

/-- The trimmed candidate drafts of `_parse_ai_response` before
padding/truncation: the first `max_items` stripped segments, minus those
shorter than 50 code points (the slice happens before the length guard). -/
def draftSegments (text : Str) (maxItems : Nat) : List Str :=
  ((segmentsOf text).take maxItems).filter (fun s => 50 ≤ s.length)

/-- Modelled from the spec: the draft segments as §4.2/C6 word them —
"discard any trimmed segment shorter than 50, then produce drafts from the
remaining segments up to max_items", i.e. the length discard applied before
the cap.  Kept for comparison with `draftSegments`, the order the code
uses. -/
def specDraftSegments (text : Str) (maxItems : Nat) : List Str :=
  ((segmentsOf text).filter (fun s => 50 ≤ s.length)).take maxItems

/-- Number of non-overlapping leftmost occurrences of `needle`
(fuel-structured recursion as in `splitCIAux`). -/
def countOccAux (needle : Str) : Nat → Str → Nat
  | _, [] => 0
  | 0, _ => 0
  | fuel + 1, c :: rest =>
    if needle.isPrefixOf (c :: rest) then
      1 + countOccAux needle fuel (List.drop needle.length (c :: rest))
    else countOccAux needle fuel rest

/-- Number of occurrences of `needle` in `t` (case-sensitive, as the
claim's "occurrences of the segment marker" counts them). -/
def countOcc (needle t : Str) : Nat := countOccAux needle t.length t

/-- `re.sub(r'^(Title:|Headline:)\s*', '', title, flags=re.IGNORECASE)`. -/
def stripTitleTag (title : Str) : Str :=
  if lowerS (title.take 6) = str "title:" then
    (title.drop 6).dropWhile isWs
  else if lowerS (title.take 9) = str "headline:" then
    (title.drop 9).dropWhile isWs
  else title

/-- The quote/asterisk class of `title.strip('*"\'')`
(code points 42 `*`, 34 `"`, 39 `'`). -/
def isQuoteChar (c : Nat) : Bool := c = 42 || c = 34 || c = 39

/-- Python `title.replace(' ', '+')`. -/
def spaceToPlus (s : Str) : Str := s.map (fun c => if c = 32 then 43 else c)

/-- The fixed source attribution used for parsed drafts. -/
def perplexitySource : NewsSource :=
  { name := str "Perplexity AI Research"
    url := some (str "https://perplexity.ai")
    credibilityScore := some (mkRat 8 10) }

/-- The local `title` right after line extraction in `_parse_ai_response`:
`lines[0].strip() if lines else f"AI News Update #{i+1}"` (the split always
returns at least one line, so the default arm is unreachable). -/
def rawTitle (i : Nat) (segment : Str) : Str :=
  match splitOnChar 10 segment with
  | [] => str "AI News Update #" ++ natStr (i + 1)
  | l :: _ => pyStrip l

/-- The title after the `Title:`/`Headline:` prefix removal and the
quote/asterisk strip. -/
def cleanedTitle (i : Nat) (segment : Str) : Str :=
  pyStripChars isQuoteChar (stripTitleTag (rawTitle i segment))

/-- The title after the minimum-length padding (fixed prefix when under
10 code points). -/
def paddedTitle (i : Nat) (segment : Str) : Str :=
  if (cleanedTitle i segment).length < 10 then
    str "Latest AI Development: " ++ cleanedTitle i segment
  else cleanedTitle i segment

/-- The final draft title (truncated to 200 code points). -/
def draftTitle (i : Nat) (segment : Str) : Str :=
  if 200 < (paddedTitle i segment).length then (paddedTitle i segment).take 200
  else paddedTitle i segment

/-- `' '.join(content_lines).strip()` where `content_lines` is the remaining
lines, or the whole segment when it is a single line. -/
def rawSummary (segment : Str) : Str :=
  pyStrip (joinSpace
    (if 1 < (splitOnChar 10 segment).length then (splitOnChar 10 segment).drop 1
     else [segment]))

/-- The summary after the minimum-length padding (fixed generic sentence
appended when under 50 code points). -/
def paddedSummary (segment : Str) : Str :=
  if (rawSummary segment).length < 50 then
    rawSummary segment
      ++ str " This represents a significant development in artificial intelligence and related technologies."
  else rawSummary segment

/-- The final draft summary (truncated to 500 code points). -/
def draftSummary (segment : Str) : Str :=
  if 500 < (paddedSummary segment).length then (paddedSummary segment).take 500
  else paddedSummary segment

/-- The draft content:
`summary[:2000] if len(summary) > 500 else summary + " " + segment[:1500]`,
computed on the already-truncated summary. -/
def draftContent (segment : Str) : Str :=
  if 500 < (draftSummary segment).length then (draftSummary segment).take 2000
  else draftSummary segment ++ [32] ++ segment.take 1500

/-- The draft category: classification of the final title and summary. -/
def draftCategory (i : Nat) (segment : Str) : AINewsCategory :=
  categorizeNews (draftTitle i segment ++ [32] ++ draftSummary segment)

/-- The derived draft link
(`f"https://perplexity.ai/search?q={title.replace(' ', '+')[:50]}"`). -/
def draftLink (i : Nat) (segment : Str) : Str :=
  str "https://perplexity.ai/search?q=" ++ (spaceToPlus (draftTitle i segment)).take 50

/-- The body of the per-segment loop of `_parse_ai_response` (after the
length-50 guard): title/summary extraction, padding, truncation, content
assembly, categorization, tag extraction and candidate construction.
`i` is the `enumerate` index of the segment. -/
def buildDraft (i : Nat) (segment : Str) : Except Str AIGeneratedNews :=
  mkAIGeneratedNews (draftTitle i segment) (draftSummary segment) (draftContent segment)
    (draftCategory i segment) (extractTags segment) perplexitySource (draftLink i segment)
    (some (generateImageUrl (draftTitle i segment) (draftCategory i segment)))
    (mkRat 8 10)

/-- The fallback item appended when fewer than `min(requested_count, 1)`
drafts were produced; `k` is the number of items already built. -/
def fallbackItem (k : Nat) : Except Str AIGeneratedNews :=
  mkAIGeneratedNews
    (str "AI Research Update #" ++ natStr (k + 1))
    (str "Latest developments in artificial intelligence and machine learning research.")
    (str "Recent advances in AI technology continue to shape various industries. Researchers are making progress in areas including natural language processing, computer vision, and automated reasoning systems.")
    .research
    [str "ai", str "research", str "technology"]
    { name := str "AI Research News"
      url := some (str "https://example.com")
      credibilityScore := some (mkRat 7 10) }
    (str "https://example.com/ai-research")
    (some (generateImageUrl (str "AI Research Update #" ++ natStr (k + 1)) .research))
    (mkRat 7 10)

/-- The per-segment loop of `_parse_ai_response` over `segments[:count]`:
segments shorter than 50 code points are skipped (the `enumerate` index still
advances), the rest become drafts in order.  A raised construction error
propagates out of the loop, as the Python exception would. -/
def buildItems : Nat → List Str → Except Str (List AIGeneratedNews)
  | _, [] => .ok []
  | i, s :: rest =>
    if s.length < 50 then buildItems (i + 1) rest
    else
      match buildDraft i s with
      | .error e => .error e
      | .ok item =>
        match buildItems (i + 1) rest with
        | .error e => .error e
        | .ok restItems => .ok (item :: restItems)

/-- `NewsGenerationAgent._parse_ai_response`.  The trailing `while` loop adds
fallback items until `min(requested_count, 1)` items exist; since that bound
is at most 1, it appends at most one fallback item. -/
def parseAiResponse (text : Str) (count : Nat) : Except Str (List AIGeneratedNews) :=
  match buildItems 0 ((segmentsOf text).take count) with
  | .error e => .error e
  | .ok items =>
    if items.length < min count 1 then
      match fallbackItem items.length with
      | .error e => .error e
      | .ok fb => .ok (items ++ [fb])
    else .ok items

/-- The `placeholder_patterns` list of `_validate_news_items`
(code points 91 `[` and 93 `]`). -/
def placeholderPatterns : List Str :=
  [[91], [93], str "TODO", str "FIXME", str "XXX"]

/-- `any(pattern in item.title or pattern in item.summary for pattern in placeholder_patterns)`. -/
def hasPlaceholder (item : AIGeneratedNews) : Bool :=
  placeholderPatterns.any
    (fun p => containsSub p item.title || containsSub p item.summary)

/-- `NewsGenerationAgent._validate_news_items`: the filtering loop with its
four `continue` guards, in source order. -/
def validateNewsItems (items : List AIGeneratedNews) (minRelevance : ℚ) :
    List AIGeneratedNews :=
  match items with
  | [] => []
  | item :: rest =>
    if item.relevanceScore < minRelevance then validateNewsItems rest minRelevance
    else if (pyWords item.title).length < 3 then validateNewsItems rest minRelevance
    else if (pyWords item.summary).length < 10 then validateNewsItems rest minRelevance
    else if hasPlaceholder item then validateNewsItems rest minRelevance
    else item :: validateNewsItems rest minRelevance

/-- `NewsGenerationRequest` of `news_schemas.py` (the search query and
recency strings do not influence any claim-relevant computation and are
carried opaquely). -/
structure NewsGenerationRequest where
  count : Nat
  categories : Option (List AINewsCategory)
  searchQuery : Str
  recency : Str
  minRelevance : ℚ
deriving DecidableEq

/-- `NewsGenerationResponse` of `news_schemas.py` (`generation_timestamp`
omitted). -/
structure NewsGenerationResponse where
  newsItems : List AIGeneratedNews
  totalGenerated : Nat
  modelUsed : Str
  searchParameters : NewsGenerationRequest
deriving DecidableEq

/-- The error taxonomy of a single client-level call inside `generate_news`:
the non-200 branch raises `Exception(f"Perplexity API returned {status}")`,
and `httpx` itself can raise transport/connection errors; all of them land in
the same `except Exception` handler. -/
inductive ClientError
  | httpStatus (code : Nat)
  | transport (msg : Str)
deriving DecidableEq

/-- The synthesized placeholder completion text assigned by the
`except` branch of the client call. -/
def fallbackContent (count : Nat) : Str :=
  str "Recent AI developments include advances in machine learning, natural language processing, and computer vision. Generated "
    ++ natStr count
    ++ str " news items about artificial intelligence breakthroughs and research updates."

/-- The completion text an attempt works with: the client result on success,
the synthesized placeholder on any client-level exception. -/
def attemptContent (outcome : Except ClientError Str) (req : NewsGenerationRequest) : Str :=
  match outcome with
  | .ok t => t
  | .error _ => fallbackContent req.count

/-- The model identifier is configuration; claims do not constrain it. -/
def modelName : Str := str "sonar"

/-- One attempt of the retry loop of `generate_news`: client call with
fallback-on-exception, parse, response assembly, validation, response
update.  An error is an exception escaping the attempt body (in the source:
a pydantic construction error during parsing). -/
def runAttempt (outcome : Except ClientError Str) (req : NewsGenerationRequest) :
    Except Str NewsGenerationResponse :=
  match parseAiResponse (attemptContent outcome req) req.count with
  | .error e => .error e
  | .ok items =>
    let validated := validateNewsItems items req.minRelevance
    .ok
      { newsItems := validated
        totalGenerated := validated.length
        modelUsed := modelName
        searchParameters := req }

/-- `AINewsGenerationException` message raised after the final attempt. -/
def genFailMsg (e : Str) : Str :=
  str "Failed to generate news after 3 attempts: " ++ e

/-- The `for attempt in range(max_attempts)` loop: each failed non-final
attempt sleeps `2 ** attempt` seconds and retries; the final failure raises
`AINewsGenerationException`.  The list carries one client outcome per
attempt. -/
def attemptLoop (req : NewsGenerationRequest) :
    List (Except ClientError Str) → Except Str NewsGenerationResponse
  | [] => .error (genFailMsg (str "no attempts"))
  | [o] =>
    match runAttempt o req with
    | .ok r => .ok r
    | .error e => .error (genFailMsg e)
  | o :: o2 :: rest =>
    match runAttempt o req with
    | .ok r => .ok r
    | .error _ => attemptLoop req (o2 :: rest)

/-- `NewsGenerationAgent.generate_news` with `max_attempts = 3`: the three
arguments are the client outcomes the three attempts would observe. -/
def generateNews (o1 o2 o3 : Except ClientError Str) (req : NewsGenerationRequest) :
    Except Str NewsGenerationResponse :=
  attemptLoop req [o1, o2, o3]

/-- `NewsStatus` of `news_item.py`. -/
inductive NewsStatus
  | pending
  | reading
  | read
deriving DecidableEq

/-- Domain `NewsCategory` of `news_item.py` (the coarser enumeration). -/
inductive NewsCategory
  | general
  | research
  | product
  | company
  | tutorial
  | opinion
deriving DecidableEq

/-- Domain `NewsItem` entity (timestamps and the storage-assigned id
omitted). -/
structure NewsItem where
  source : Str
  title : Str
  summary : Str
  link : Str
  imageUrl : Str
  category : NewsCategory
  userId : Str
  isPublic : Bool
  status : NewsStatus
  isFavorite : Bool
deriving DecidableEq

/-- `NewsItem.__post_init__` validation: the emptiness checks raise
`ValueError`; a constructed entity starts `pending` and non-favorite, as in
`CreateNewsUseCase.execute`. -/
def mkNewsItem (source title summary link imageUrl : Str)
    (category : NewsCategory) (userId : Str) (isPublic : Bool) :
    Except Str NewsItem :=
  if (pyStrip source).isEmpty then .error (str "News source cannot be empty")
  else if (pyStrip title).isEmpty then .error (str "News title cannot be empty")
  else if (pyStrip summary).isEmpty then .error (str "News summary cannot be empty")
  else if (pyStrip link).isEmpty then .error (str "News link cannot be empty")
  else if (pyStrip userId).isEmpty then .error (str "User ID cannot be empty")
  else
    .ok
      { source := source
        title := title
        summary := summary
        link := link
        imageUrl := imageUrl
        category := category
        userId := userId
        isPublic := isPublic
        status := .pending
        isFavorite := false }

/-- The repository contents relevant to the claims: the stored news items
(`exists_by_link_and_user` queries them). -/
abbrev RepoState := List NewsItem

/-- `NewsRepository.exists_by_link_and_user`. -/
def existsByLinkAndUser (st : RepoState) (link userId : Str) : Bool :=
  st.any (fun n => n.link = link ∧ n.userId = userId)

/-- The error taxonomy of `CreateNewsUseCase.execute`. -/
inductive CreateError
  | duplicate (link userId : Str)
  | valueError (msg : Str)
deriving DecidableEq

/-- `CreateNewsUseCase.execute`: duplicate check against the repository,
entity construction, then `repository.create`. -/
def createNewsUseCase (st : RepoState) (source title summary link imageUrl : Str)
    (category : NewsCategory) (userId : Str) (isPublic : Bool) :
    Except CreateError (NewsItem × RepoState) :=
  if existsByLinkAndUser st link userId then .error (.duplicate link userId)
  else
    match mkNewsItem source title summary link imageUrl category userId isPublic with
    | .error m => .error (.valueError m)
    | .ok item => .ok (item, st ++ [item])

/-- The `category_mapping` dict of `GenerateAINewsUseCase._convert_and_store_news`
(it covers all seven values, so the `.get` default `GENERAL` is never used). -/
def categoryMapping : AINewsCategory → NewsCategory
  | .breakthrough => .research
  | .research => .research
  | .product_launch => .product
  | .industry_update => .company
  | .policy_regulation => .general
  | .tutorial_guide => .tutorial
  | .opinion_analysis => .opinion

/-- `GenerateAINewsUseCase._convert_and_store_news`. -/
def convertAndStore (st : RepoState) (ai : AIGeneratedNews) (userId : Str)
    (isPublic : Bool) : Except CreateError (NewsItem × RepoState) :=
  createNewsUseCase st ai.source.name ai.title ai.summary ai.link
    (ai.imageUrl.getD []) (categoryMapping ai.category) userId isPublic

/-- The per-candidate persistence loop of `GenerateAINewsUseCase.execute`:
a failing candidate is caught, logged and skipped; the loop returns the
successfully created items in order, together with the final repository
state. -/
def storeLoop (userId : Str) (isPublic : Bool) :
    List AIGeneratedNews → RepoState → List NewsItem × RepoState
  | [], st => ([], st)
  | ai :: rest, st =>
    match convertAndStore st ai userId isPublic with
    | .ok (item, st2) =>
      (item :: (storeLoop userId isPublic rest st2).1,
        (storeLoop userId isPublic rest st2).2)
    | .error _ => storeLoop userId isPublic rest st

/-- The `NewsGenerationRequest` built by `GenerateAINewsUseCase.execute`
(`recency="day"`, defaulted search query and `min_relevance = 0.7`). -/
def defaultAiRequest (count : Nat) (categories : Option (List AINewsCategory)) :
    NewsGenerationRequest :=
  { count := count
    categories := categories
    searchQuery := str "latest AI artificial intelligence news breakthroughs"
    recency := str "day"
    minRelevance := mkRat 7 10 }

/-- `GenerateAINewsUseCase.execute`: generation, then the per-candidate
persistence loop; a generation failure propagates and the repository is
left untouched. -/
def executeGenerateAINews (o1 o2 o3 : Except ClientError Str) (userId : Str)
    (count : Nat) (categories : Option (List AINewsCategory)) (isPublic : Bool)
    (st : RepoState) : Except Str (List NewsItem) × RepoState :=
  match generateNews o1 o2 o3 (defaultAiRequest count categories) with
  | .error e => (.error e, st)
  | .ok resp =>
    let (created, st2) := storeLoop userId isPublic resp.newsItems st
    (.ok created, st2)

/-- Did this `Except` computation raise? -/
def isErr {ε α : Type} : Except ε α → Bool
  | .error _ => true
  | .ok _ => false

/-- The validity predicate of the Validator, worded as the specification
words it: relevance at or above the threshold (boundary inclusive), at least
3 title words, at least 10 summary words, and no placeholder marker. -/
def keepSpec (minRelevance : ℚ) (item : AIGeneratedNews) : Bool :=
  decide (minRelevance ≤ item.relevanceScore)
    && decide (3 ≤ (pyWords item.title).length)
    && decide (10 ≤ (pyWords item.summary).length)
    && ! hasPlaceholder item

/-- A well-behaved completion text: one marker-introduced item with a
headline line and a long summary paragraph. -/
def sampleText : Str :=
  str "NEWS ITEM: Researchers announce progress on alignment benchmarks\nThe team released a detailed study describing how new evaluation methods improve measurement of model capabilities across many tasks and domains."

/-- Placeholder response used only as a `match` default for sample values. -/
def dummyResponse : NewsGenerationResponse :=
  { newsItems := []
    totalGenerated := 0
    modelUsed := modelName
    searchParameters := defaultAiRequest 1 none }

/-- The concrete response of a sample successful generation run. -/
def sampleResp : NewsGenerationResponse :=
  match generateNews (.ok sampleText) (.ok sampleText) (.ok sampleText)
      (defaultAiRequest 2 none) with
  | .ok r => r
  | .error _ => dummyResponse

/-- A connection-level client failure, as `httpx` would raise it. -/
def connErr : Except ClientError Str := .error (.transport (str "connection failed"))

/-- A completion text whose single segment has a clickbait headline, so the
attempt body fails past the client fallback (pydantic raises). -/
def badText : Str :=
  str "NEWS ITEM: SHOCKING developments in artificial intelligence research announced today overall"

/-- The client outcome of an attempt whose call succeeded with `badText`. -/
def badAttempt : Except ClientError Str := .ok badText

/-- A text on which `research` and `product_launch` tie with score 3. -/
def tieText : Str := str "research paper study launch release announce"

def noColon (s : Str) : Prop := ∀ c ∈ s, c ≠ 58

instance noColonDecidable (s : Str) : Decidable (noColon s) :=
  inferInstanceAs (Decidable (∀ c ∈ s, c ≠ 58))

/-- One marker occurrence, but a ≥50-character preamble before it also
becomes a draft segment: two drafts from one marker. -/
def preambleText : Str :=
  str "Artificial intelligence systems keep improving steadily every single month NEWS ITEM: Researchers presented a new model evaluation suite covering many domains"

/-- Two marker occurrences whose first segment is short: with
`max_items = 1` the short segment consumes the only slot and is then
discarded, so the code yields 0 drafts where the spec's
discard-before-cap order yields 1. -/
def shortFirstText : Str :=
  str "NEWS ITEM: tiny NEWS ITEM: Researchers presented a new model evaluation suite covering many domains today"

/-- Concrete marker blocks for the amended parser theorem. -/
def blockSegs : List Str :=
  [str " Researchers presented a new model evaluation suite covering many domains",
   str " A second long segment describing further analysis of the evaluation results"]

/-- A representative well-formed segment (headline line plus summary line). -/
def c7sample : Str :=
  str "Informative headline about machine learning progress\nResearchers describe how the approach performs across benchmarks and why the results matter for practitioners in several industries."

/-- Inert default candidate used only as a `match` fallback. -/
def dummyNews : AIGeneratedNews :=
  { title := []
    summary := []
    content := []
    category := .research
    tags := []
    source := perplexitySource
    link := []
    imageUrl := none
    relevanceScore := 0 }

/-- The concrete draft the parser builds from `c7sample`. -/
def c7draft : AIGeneratedNews :=
  match buildDraft 0 c7sample with
  | .ok it => it
  | .error _ => dummyNews

/-- A concrete well-formed candidate for the persistence witness. -/
def c8cand : AIGeneratedNews :=
  { title := str "Solid headline here"
    summary := str "A summary long enough to pass the minimum threshold easily for sure okay"
    content := str "Content of the candidate describing the development in enough detail to satisfy the schema bounds for storage."
    category := .research
    tags := []
    source := perplexitySource
    link := str "https://example.com/item-1"
    imageUrl := none
    relevanceScore := mkRat 8 10 }

/-- Inert default domain item used only as a `match` fallback. -/
def dummyNewsItem : NewsItem :=
  { source := []
    title := []
    summary := []
    link := []
    imageUrl := []
    category := .general
    userId := []
    isPublic := false
    status := .pending
    isFavorite := false }

/-- The domain item produced by persisting `c8cand` into an empty repository. -/
def c8item : NewsItem :=
  match convertAndStore [] c8cand (str "user-1") false with
  | .ok (item, _) => item
  | .error _ => dummyNewsItem

/-- The repository state after persisting `c8cand` into an empty repository. -/
def c8state : RepoState :=
  match convertAndStore [] c8cand (str "user-1") false with
  | .ok (_, st) => st
  | .error _ => []

theorem validateNewsItems_eq_filter (items : List AIGeneratedNews) (r : ℚ) :
    validateNewsItems items r = items.filter (keepSpec r) := by
  induction items with
  | nil => rfl
  | cons item rest ih =>
    rw [List.filter_cons]
    show (if item.relevanceScore < r then validateNewsItems rest r
      else if (pyWords item.title).length < 3 then validateNewsItems rest r
      else if (pyWords item.summary).length < 10 then validateNewsItems rest r
      else if hasPlaceholder item then validateNewsItems rest r
      else item :: validateNewsItems rest r) = _
    by_cases h1 : item.relevanceScore < r
    · have hk : keepSpec r item = false := by
        simp only [keepSpec, Bool.and_eq_false_iff, decide_eq_false_iff_not, not_le]
        exact Or.inl (Or.inl (Or.inl h1))
      simp [h1, hk, ih]
    · by_cases h2 : (pyWords item.title).length < 3
      · have hk : keepSpec r item = false := by
          simp only [keepSpec, Bool.and_eq_false_iff, decide_eq_false_iff_not, not_le]
          exact Or.inl (Or.inl (Or.inr h2))
        simp [h1, h2, hk, ih]
      · by_cases h3 : (pyWords item.summary).length < 10
        · have hk : keepSpec r item = false := by
            simp only [keepSpec, Bool.and_eq_false_iff, decide_eq_false_iff_not, not_le]
            exact Or.inl (Or.inr h3)
          simp [h1, h2, h3, hk, ih]
        · by_cases h4 : hasPlaceholder item = true
          · have hk : keepSpec r item = false := by
              simp only [keepSpec, Bool.and_eq_false_iff]
              exact Or.inr (by simp [h4])
            simp [h1, h2, h3, h4, hk, ih]
          · have hk : keepSpec r item = true := by
              simp only [keepSpec, Bool.and_eq_true, decide_eq_true_eq]
              refine ⟨⟨⟨not_lt.mp h1, not_lt.mp h2⟩, not_lt.mp h3⟩, by simp [h4]⟩
            simp [h1, h2, h3, h4, hk, ih]

theorem validateNewsItems_sublist (items : List AIGeneratedNews) (r : ℚ) :
    List.Sublist (validateNewsItems items r) items := by
  rw [validateNewsItems_eq_filter]
  exact List.filter_sublist items

/-- C4: the validator keeps exactly the candidates with
`relevance_score ≥ min_relevance` (boundary inclusive), at least 3 title
words, at least 10 summary words and no placeholder marker (`[`, `]`,
`TODO`, `FIXME`, `XXX` as literal substrings of title or summary); the
output is an order-preserving sublist of the input, so the survivors are the
input candidates themselves, unmutated. -/
theorem validator_keeps_exactly_spec (items : List AIGeneratedNews) (minRelevance : ℚ) :
    validateNewsItems items minRelevance = items.filter (keepSpec minRelevance)
    ∧ List.Sublist (validateNewsItems items minRelevance) items :=
  ⟨validateNewsItems_eq_filter items minRelevance, validateNewsItems_sublist items minRelevance⟩

/-- C3: inside one attempt, every client-level failure (connection failure,
non-2xx response, any other exception of the call) is caught and replaced by
the synthesized placeholder completion text, and the attempt then behaves
exactly as an attempt whose client call succeeded with that placeholder text
(so it proceeds to parsing, and the client error never reaches the outer
retry loop). -/
theorem client_error_fallback (e : ClientError) (req : NewsGenerationRequest) :
    attemptContent (.error e) req = fallbackContent req.count
    ∧ runAttempt (.error e) req = runAttempt (.ok (fallbackContent req.count)) req
    ∧ ∀ o2 o3, generateNews (.error e) o2 o3 req
        = generateNews (.ok (fallbackContent req.count)) o2 o3 req :=
  ⟨rfl, rfl, fun _ _ => rfl⟩

theorem buildItems_ok_length :
    ∀ (segs : List Str) (i : Nat) (l : List AIGeneratedNews),
      buildItems i segs = .ok l →
      l.length = (segs.filter (fun s => 50 ≤ s.length)).length := by
  intro segs
  induction segs with
  | nil =>
    intro i l h
    cases h
    rfl
  | cons s rest ih =>
    intro i l h
    by_cases hs : s.length < 50
    · have hs2 : ¬ (50 ≤ s.length) := by omega
      rw [List.filter_cons]
      simp only [hs2, decide_eq_true_eq, if_neg, decide_False]
      simp only [buildItems, if_pos hs] at h
      exact ih (i + 1) l h
    · have hs2 : (50 ≤ s.length) := by omega
      rw [List.filter_cons]
      simp only [hs2, decide_True, if_pos]
      simp only [buildItems, if_neg hs] at h
      cases hd : buildDraft i s with
      | error e => rw [hd] at h; cases h
      | ok item =>
        rw [hd] at h
        cases ht : buildItems (i + 1) rest with
        | error e => rw [ht] at h; cases h
        | ok restItems =>
          rw [ht] at h
          cases h
          simp only [List.length_cons]
          rw [ih (i + 1) restItems ht]

theorem parseAiResponse_ok_length {text : Str} {count : Nat} {items : List AIGeneratedNews}
    (hc : 1 ≤ count) (h : parseAiResponse text count = .ok items) :
    items.length ≤ count := by
  unfold parseAiResponse at h
  cases hb : buildItems 0 ((segmentsOf text).take count) with
  | error e => rw [hb] at h; cases h
  | ok built =>
    rw [hb] at h
    have hlen : built.length ≤ count := by
      have h1 := buildItems_ok_length _ 0 built hb
      have h2 : (((segmentsOf text).take count).filter (fun s => 50 ≤ s.length)).length
          ≤ ((segmentsOf text).take count).length := List.length_filter_le _ _
      have h3 : ((segmentsOf text).take count).length ≤ count := by
        rw [List.length_take]; omega
      omega
    by_cases hfb : built.length < min count 1
    · simp only [if_pos hfb] at h
      cases hf : fallbackItem built.length with
      | error e => rw [hf] at h; cases h
      | ok fb =>
        rw [hf] at h
        cases h
        have : built.length = 0 := by omega
        simp [List.length_append, this]
        omega
    · simp only [if_neg hfb] at h
      cases h
      exact hlen

theorem runAttempt_ok_shape {o : Except ClientError Str} {req : NewsGenerationRequest}
    {resp : NewsGenerationResponse} (h : runAttempt o req = .ok resp) :
    ∃ items, parseAiResponse (attemptContent o req) req.count = .ok items
      ∧ resp.newsItems = validateNewsItems items req.minRelevance := by
  unfold runAttempt at h
  cases hp : parseAiResponse (attemptContent o req) req.count with
  | error e => rw [hp] at h; cases h
  | ok items =>
    rw [hp] at h
    cases h
    exact ⟨items, rfl, rfl⟩

theorem attemptLoop_ok {req : NewsGenerationRequest} :
    ∀ {l : List (Except ClientError Str)} {resp : NewsGenerationResponse},
      attemptLoop req l = .ok resp → ∃ o ∈ l, runAttempt o req = .ok resp := by
  intro l
  induction l with
  | nil => intro resp h; cases h
  | cons o rest ih =>
    intro resp h
    cases rest with
    | nil =>
      cases ha : runAttempt o req with
      | error e => simp only [attemptLoop, ha] at h; cases h
      | ok r =>
        simp only [attemptLoop, ha] at h
        cases h
        exact ⟨o, by simp, ha⟩
    | cons o2 rest2 =>
      cases ha : runAttempt o req with
      | error e =>
        simp only [attemptLoop, ha] at h
        obtain ⟨o3, ho3, hr⟩ := ih h
        exact ⟨o3, by simp [ho3], hr⟩
      | ok r =>
        simp only [attemptLoop, ha] at h
        cases h
        exact ⟨o, by simp, ha⟩

/-- C1: for a well-formed request (`count = N ≥ 1`), a successful generation
returns between 0 and `N` validated candidates, never more: parsing caps the
drafts at the requested count and validation only removes candidates (it
returns a sublist of its input). -/
theorem generation_count_bounded (o1 o2 o3 : Except ClientError Str)
    (req : NewsGenerationRequest) (resp : NewsGenerationResponse)
    (h1 : 1 ≤ req.count) (h2 : generateNews o1 o2 o3 req = .ok resp) :
    resp.newsItems.length ≤ req.count
    ∧ (∀ text items, parseAiResponse text req.count = .ok items → items.length ≤ req.count)
    ∧ (∀ items, List.Sublist (validateNewsItems items req.minRelevance) items) := by
  refine ⟨?_, fun text items h => parseAiResponse_ok_length h1 h,
    fun items => validateNewsItems_sublist items req.minRelevance⟩
  obtain ⟨o, _, ho⟩ := attemptLoop_ok (l := [o1, o2, o3]) h2
  obtain ⟨items, hp, hv⟩ := runAttempt_ok_shape ho
  have hle : (validateNewsItems items req.minRelevance).length ≤ items.length :=
    (validateNewsItems_sublist items req.minRelevance).length_le
  have := parseAiResponse_ok_length h1 hp
  rw [hv]
  omega

theorem generation_count_bounded_witness :
    sampleResp.newsItems.length ≤ (defaultAiRequest 2 none).count
    ∧ (∀ text items, parseAiResponse text (defaultAiRequest 2 none).count = .ok items →
        items.length ≤ (defaultAiRequest 2 none).count)
    ∧ (∀ items, List.Sublist
        (validateNewsItems items (defaultAiRequest 2 none).minRelevance) items) :=
  generation_count_bounded (.ok sampleText) (.ok sampleText) (.ok sampleText)
    (defaultAiRequest 2 none) sampleResp (by decide) (by rfl)

/-- C2 (amended): behavior when provider calls fail.  The attempt-level
fallback means client failures alone never produce `GenerationFailed`; the
generation fails exactly when the attempt body past the client fallback
(parsing / candidate construction) raises on all three attempts, and in that
case the use case propagates the error and performs no persistence (the
repository state is returned unchanged). -/
theorem generation_failed_amended (o1 o2 o3 : Except ClientError Str) (userId : Str)
    (count : Nat) (cats : Option (List AINewsCategory)) (isPublic : Bool)
    (st : RepoState) (req : NewsGenerationRequest) :
    (isErr (generateNews o1 o2 o3 req)
      = (isErr (runAttempt o1 req) && isErr (runAttempt o2 req) && isErr (runAttempt o3 req)))
    ∧ (∀ e : ClientError, isErr (runAttempt (.error e) req)
        = isErr (runAttempt (.ok (fallbackContent req.count)) req))
    ∧ (∀ e, generateNews o1 o2 o3 (defaultAiRequest count cats) = .error e →
        executeGenerateAINews o1 o2 o3 userId count cats isPublic st = (.error e, st)) := by
  refine ⟨?_, fun e => rfl, fun e h => ?_⟩
  · cases h1 : runAttempt o1 req with
    | ok r => simp [generateNews, attemptLoop, h1, isErr]
    | error e1 =>
      cases h2 : runAttempt o2 req with
      | ok r => simp [generateNews, attemptLoop, h1, h2, isErr]
      | error e2 =>
        cases h3 : runAttempt o3 req with
        | ok r => simp [generateNews, attemptLoop, h1, h2, h3, isErr]
        | error e3 => simp [generateNews, attemptLoop, h1, h2, h3, isErr]
  · unfold executeGenerateAINews
    rw [h]

theorem generation_failed_counterexample :
    isErr (generateNews connErr connErr connErr (defaultAiRequest 5 none)) = false
    ∧ isErr (executeGenerateAINews connErr connErr connErr (str "user-1") 5 none false []).1
        = false
    ∧ (executeGenerateAINews connErr connErr connErr (str "user-1") 5 none false []).2.length
        = 1 :=
  ⟨rfl, rfl, rfl⟩

theorem generation_failed_amended_witness :
    executeGenerateAINews badAttempt badAttempt badAttempt (str "user-1") 5 none false []
      = (.error (genFailMsg (str "title contains clickbait pattern")), []) :=
  (generation_failed_amended badAttempt badAttempt badAttempt (str "user-1") 5 none false
    [] (defaultAiRequest 5 none)).2.2 _ (by rfl)

theorem client_error_fallback_witness :
    runAttempt (.error (.httpStatus 503)) (defaultAiRequest 3 none)
      = runAttempt (.ok (fallbackContent 3)) (defaultAiRequest 3 none) :=
  (client_error_fallback (.httpStatus 503) (defaultAiRequest 3 none)).2.1

theorem catComplete : ∀ c : AINewsCategory, c ∈ catList := by
  intro c
  cases c <;> simp [catList]

theorem catList_nodup : catList.Nodup := by decide

theorem catList_take_decomp :
    ∀ cc : AINewsCategory,
      catList = catList.take (catIdx cc) ++ cc :: catList.drop (catIdx cc + 1) := by
  intro cc
  cases cc <;> rfl

theorem mem_take_of_catIdx_lt :
    ∀ c cc : AINewsCategory, catIdx c < catIdx cc → c ∈ catList.take (catIdx cc) := by
  decide

theorem append_cons_nodup_inj {α : Type} :
    ∀ (l1 : List α) (l1' : List α) (a : α) (l2 l2' : List α),
      (l1 ++ a :: l2).Nodup → l1 ++ a :: l2 = l1' ++ a :: l2' → l1 = l1' := by
  intro l1
  induction l1 with
  | nil =>
    intro l1' a l2 l2' hnd heq
    cases l1' with
    | nil => rfl
    | cons b t =>
      exfalso
      simp only [List.nil_append, List.cons_append, List.cons.injEq] at heq
      obtain ⟨hab, h2⟩ := heq
      have ha : a ∈ l2 := by
        rw [h2]
        exact List.mem_append_right _ (List.mem_cons_self a l2')
      exact (List.nodup_cons.mp hnd).1 ha
  | cons b t ih =>
    intro l1' a l2 l2' hnd heq
    cases l1' with
    | nil =>
      exfalso
      simp only [List.cons_append, List.nil_append, List.cons.injEq] at heq
      obtain ⟨hab, h2⟩ := heq
      have ha : b ∈ t ++ a :: l2 := by
        rw [hab]
        exact List.mem_append_right _ (List.mem_cons_self a l2)
      exact (List.nodup_cons.mp (by simpa using hnd)).1 ha
    | cons b' t' =>
      simp only [List.cons_append, List.cons.injEq] at heq
      obtain ⟨hbb, h2⟩ := heq
      rw [ih t' a l2 l2' (List.nodup_cons.mp (by simpa using hnd)).2 h2, hbb]

theorem bestOf_eq_none {t : Str} :
    ∀ {l : List AINewsCategory}, bestOf t l = none → ∀ c ∈ l, score t c = 0 := by
  intro l
  induction l with
  | nil => intro _ c hc; cases hc
  | cons c0 rest ih =>
    intro h c hc
    by_cases h0 : score t c0 = 0
    · rw [List.mem_cons] at hc
      rcases hc with rfl | hc
      · exact h0
      · refine ih ?_ c hc
        simpa [bestOf, h0] using h
    · exfalso
      cases hb : bestOf t rest with
      | none => simp [bestOf, h0, hb] at h
      | some p =>
        obtain ⟨c2, s2⟩ := p
        by_cases hgt : s2 > score t c0 <;> simp [bestOf, h0, hb, hgt] at h

theorem bestOf_spec {t : Str} :
    ∀ {l : List AINewsCategory} {c : AINewsCategory} {s : Nat},
      bestOf t l = some (c, s) →
      score t c = s ∧ 0 < s ∧ (∀ c2 ∈ l, score t c2 ≤ s) ∧
        ∃ l1 l2, l = l1 ++ c :: l2 ∧ ∀ c2 ∈ l1, score t c2 < s := by
  intro l
  induction l with
  | nil => intro c s h; cases h
  | cons c0 rest ih =>
    intro c s h
    by_cases h0 : score t c0 = 0
    · have h' : bestOf t rest = some (c, s) := by simpa [bestOf, h0] using h
      obtain ⟨hsc, hpos, hmax, l1, l2, hdec, hlt⟩ := ih h'
      refine ⟨hsc, hpos, ?_, c0 :: l1, l2, by rw [hdec, List.cons_append], ?_⟩
      · intro c2 hc2
        rw [List.mem_cons] at hc2
        rcases hc2 with rfl | hc2
        · omega
        · exact hmax c2 hc2
      · intro c2 hc2
        rw [List.mem_cons] at hc2
        rcases hc2 with rfl | hc2
        · omega
        · exact hlt c2 hc2
    · cases hb : bestOf t rest with
      | none =>
        have h' : some (c0, score t c0) = some (c, s) := by simpa [bestOf, h0, hb] using h
        obtain ⟨rfl, rfl⟩ : c0 = c ∧ score t c0 = s := by
          simpa [Prod.ext_iff] using h'
        have hz := bestOf_eq_none hb
        refine ⟨rfl, Nat.pos_of_ne_zero h0, ?_, [], rest, rfl, by intro c2 hc2; cases hc2⟩
        intro c2 hc2
        rw [List.mem_cons] at hc2
        rcases hc2 with rfl | hc2
        · exact le_refl _
        · rw [hz c2 hc2]; exact Nat.zero_le _
      | some p =>
        obtain ⟨c2, s2⟩ := p
        obtain ⟨hsc2, hpos2, hmax2, l1', l2', hdec2, hlt2⟩ := ih hb
        by_cases hgt : s2 > score t c0
        · have h' : some (c2, s2) = some (c, s) := by simpa [bestOf, h0, hb, hgt] using h
          obtain ⟨rfl, rfl⟩ : c2 = c ∧ s2 = s := by simpa [Prod.ext_iff] using h'
          refine ⟨hsc2, hpos2, ?_, c0 :: l1', l2', by rw [hdec2, List.cons_append], ?_⟩
          · intro c3 hc3
            rw [List.mem_cons] at hc3
            rcases hc3 with rfl | hc3
            · omega
            · exact hmax2 c3 hc3
          · intro c3 hc3
            rw [List.mem_cons] at hc3
            rcases hc3 with rfl | hc3
            · omega
            · exact hlt2 c3 hc3
        · have h' : some (c0, score t c0) = some (c, s) := by simpa [bestOf, h0, hb, hgt] using h
          obtain ⟨rfl, rfl⟩ : c0 = c ∧ score t c0 = s := by simpa [Prod.ext_iff] using h'
          refine ⟨rfl, Nat.pos_of_ne_zero h0, ?_, [], rest, rfl, by intro c3 hc3; cases hc3⟩
          intro c3 hc3
          rw [List.mem_cons] at hc3
          rcases hc3 with rfl | hc3
          · exact le_refl _
          · have := hmax2 c3 hc3
            omega

/-- C5: the classifier counts case-insensitive literal keyword occurrences
per category (definition `score` over the fixed `patterns` tables), returns
a category of maximal score, which has non-zero score whenever any category
scores non-zero, defaults to `industry_update` when all scores are zero,
resolves ties among positive maxima in favor of the first category in
enumeration declaration order, and is deterministic. -/
theorem classifier_spec (t : Str) :
    categorizeNews t = categorizeNews t
    ∧ (∀ c, score t c ≤ score t (categorizeNews t))
    ∧ ((∃ c, 0 < score t c) → 0 < score t (categorizeNews t))
    ∧ ((∀ c, score t c = 0) → categorizeNews t = .industry_update)
    ∧ (∀ c, 0 < score t c → score t c = score t (categorizeNews t) →
        catIdx (categorizeNews t) ≤ catIdx c) := by
  cases hb : bestOf t catList with
  | none =>
    have hall : ∀ c, score t c = 0 := fun c => bestOf_eq_none hb c (catComplete c)
    have hcat : categorizeNews t = .industry_update := by
      unfold categorizeNews; rw [hb]
    refine ⟨rfl, ?_, ?_, fun _ => hcat, ?_⟩
    · intro c; rw [hall c]; exact Nat.zero_le _
    · rintro ⟨c, hc⟩; rw [hall c] at hc; omega
    · intro c hc; rw [hall c] at hc; omega
  | some p =>
    obtain ⟨cc, s⟩ := p
    have hcat : categorizeNews t = cc := by
      unfold categorizeNews; rw [hb]
    obtain ⟨hsc, hpos, hmax, l1, l2, hdec, hlt⟩ := bestOf_spec hb
    rw [hcat]
    refine ⟨rfl, ?_, ?_, ?_, ?_⟩
    · intro c; rw [hsc]; exact hmax c (catComplete c)
    · intro _; rw [hsc]; exact hpos
    · intro hall; rw [hall cc] at hsc; omega
    · intro c hc htie
      by_contra hidx
      have hlt2 : catIdx c < catIdx cc := by omega
      have hl1 : l1 = catList.take (catIdx cc) := by
        refine append_cons_nodup_inj l1 (catList.take (catIdx cc)) cc l2 (catList.drop (catIdx cc + 1)) ?_ ?_
        · rw [← hdec]; exact catList_nodup
        · rw [← hdec]; exact catList_take_decomp cc
      have hmem : c ∈ l1 := by
        rw [hl1]; exact mem_take_of_catIdx_lt c cc hlt2
      have := hlt c hmem
      rw [htie, hsc] at this
      omega

theorem classifier_spec_witness :
    catIdx (categorizeNews tieText) ≤ catIdx AINewsCategory.product_launch
    ∧ score tieText AINewsCategory.product_launch ≤ score tieText (categorizeNews tieText) :=
  ⟨(classifier_spec tieText).2.2.2.2 AINewsCategory.product_launch (by decide) (by decide),
   (classifier_spec tieText).2.1 AINewsCategory.product_launch⟩

/-- No colon code point occurs in the string (the marker `"NEWS ITEM:"`
always contains one, so occurrences cannot hide inside such a segment). -/
theorem splitCIAux_fuel :
    ∀ (f g : Nat) (t : Str), t.length ≤ f → t.length ≤ g →
      splitCIAux f t = splitCIAux g t := by
  intro f
  induction f with
  | zero =>
    intro g t hf _
    have ht : t = [] := List.length_eq_zero.mp (Nat.le_zero.mp hf)
    subst ht
    cases g <;> rfl
  | succ f ih =>
    intro g t hf hg
    cases t with
    | nil => cases g <;> rfl
    | cons c rest =>
      cases g with
      | zero => simp at hg
      | succ g' =>
        simp only [splitCIAux]
        by_cases hm : markerAt (c :: rest) = true
        · rw [if_pos hm, if_pos hm]
          have hd : (List.drop 10 (c :: rest)).length = rest.length + 1 - 10 := by
            rw [List.length_drop, List.length_cons]
          simp only [List.length_cons] at hf hg
          rw [ih g' (List.drop 10 (c :: rest)) (by omega) (by omega)]
        · rw [if_neg hm, if_neg hm]
          simp only [List.length_cons] at hf hg
          rw [ih g' rest (by omega) (by omega)]

theorem splitCI_marker {t : Str} (ht : t ≠ []) (h : markerAt t = true) :
    splitCI t = [] :: splitCI (t.drop 10) := by
  cases t with
  | nil => exact absurd rfl ht
  | cons c rest =>
    show splitCIAux (c :: rest).length (c :: rest) = _
    rw [List.length_cons]
    simp only [splitCIAux, if_pos h]
    have hd : (List.drop 10 (c :: rest)).length = (c :: rest).length - 10 :=
      List.length_drop 10 (c :: rest)
    simp only [List.length_cons] at hd
    rw [splitCIAux_fuel rest.length (List.drop 10 (c :: rest)).length
      (List.drop 10 (c :: rest)) (by omega) (le_refl _)]
    rfl

theorem splitCI_nomark {c : Nat} {rest : Str} (h : markerAt (c :: rest) = false) :
    splitCI (c :: rest) = match splitCI rest with
      | [] => [[c]]
      | s :: ss => (c :: s) :: ss := by
  show splitCIAux (c :: rest).length (c :: rest) = _
  rw [List.length_cons]
  simp only [splitCIAux, h, Bool.false_eq_true, if_false]
  rfl

theorem lowerC_ne_colon {c : Nat} (h : c ≠ 58) : lowerC c ≠ 58 := by
  unfold lowerC
  split_ifs with h1 <;> omega

theorem markerAt_eq_false_of_noColon {t : Str} (h : noColon (t.take 10)) :
    markerAt t = false := by
  unfold markerAt
  apply decide_eq_false
  intro heq
  have h58 : (58 : Nat) ∈ markerLower := by decide
  rw [← heq] at h58
  obtain ⟨c, hc, hlc⟩ := List.mem_map.mp h58
  exact lowerC_ne_colon (h c hc) hlc

theorem markerAt_markerU (r : Str) : markerAt (markerU ++ r) = true := by
  unfold markerAt
  have h10 : (markerU ++ r).take 10 = markerU := by
    rw [show (10 : Nat) = markerU.length from rfl, List.take_left]
  rw [h10]
  decide

theorem noColon_take_ten {s : Str} (hs : noColon s) (hne : s ≠ []) (w : Str) :
    noColon ((s ++ (markerU ++ w)).take 10) := by
  intro c hc
  rw [List.take_append_eq_append_take] at hc
  rcases List.mem_append.mp hc with h1 | h2
  · exact hs c (List.take_subset _ _ h1)
  · have hlen : 1 ≤ s.length := List.length_pos.mpr hne
    rw [List.take_append_eq_append_take] at h2
    rcases List.mem_append.mp h2 with h3 | h4
    · have h9 : min (10 - s.length) 9 = 10 - s.length := by omega
      have hsub : markerU.take (10 - s.length) = (markerU.take 9).take (10 - s.length) := by
        rw [List.take_take, h9]
      rw [hsub] at h3
      have h3' : c ∈ markerU.take 9 := List.take_subset _ _ h3
      revert h3'
      have : noColon (markerU.take 9) := by decide
      exact fun hx => this c hx
    · have hz : 10 - s.length - markerU.length = 0 := by
        rw [show markerU.length = 10 from rfl]; omega
      rw [hz] at h4
      simp at h4

theorem splitCI_noColon (s : Str) (hs : noColon s) : splitCI s = [s] := by
  induction s with
  | nil => rfl
  | cons c s' ih =>
    have hm : markerAt (c :: s') = false := by
      apply markerAt_eq_false_of_noColon
      intro x hx
      exact hs x (List.take_subset _ _ hx)
    rw [splitCI_nomark hm, ih (fun x hx => hs x (List.mem_cons_of_mem c hx))]

theorem splitCI_append_marker :
    ∀ (s : Str) (r : Str), noColon s → splitCI (s ++ markerU ++ r) = s :: splitCI r := by
  intro s
  induction s with
  | nil =>
    intro r _
    simp only [List.nil_append]
    have hne : markerU ++ r ≠ [] := by
      intro h
      have := (List.append_eq_nil.mp h).1
      exact absurd this (by decide)
    rw [splitCI_marker hne (markerAt_markerU r)]
    rw [show (markerU ++ r).drop 10 = r from by
      rw [show (10 : Nat) = markerU.length from rfl, List.drop_left]]
  | cons c s' ih =>
    intro r hs
    have hs' : noColon s' := fun x hx => hs x (List.mem_cons_of_mem c hx)
    have hm : markerAt (c :: (s' ++ markerU ++ r)) = false := by
      apply markerAt_eq_false_of_noColon
      have h1 := noColon_take_ten (s := c :: s') hs (by simp) r
      rw [show (c :: s') ++ (markerU ++ r) = c :: (s' ++ markerU ++ r) from by simp] at h1
      exact h1
    rw [show (c :: s') ++ markerU ++ r = c :: (s' ++ markerU ++ r) from by simp]
    rw [splitCI_nomark hm, ih r hs']

theorem splitCI_blocks_tail :
    ∀ (rest : List Str) (s : Str), noColon s → (∀ x ∈ rest, noColon x) →
      splitCI (s ++ blocksText rest) = s :: rest := by
  intro rest
  induction rest with
  | nil =>
    intro s hs _
    rw [show blocksText [] = [] from rfl, List.append_nil]
    exact splitCI_noColon s hs
  | cons s2 rest2 ih =>
    intro s hs hall
    rw [show s ++ blocksText (s2 :: rest2) = s ++ markerU ++ (s2 ++ blocksText rest2) from by
      simp [blocksText, markerBlock]]
    rw [splitCI_append_marker s _ hs,
      ih s2 (hall s2 (by simp)) (fun x hx => hall x (by simp [hx]))]

theorem splitCI_blocks (segs : List Str) (hne : segs ≠ [])
    (hall : ∀ x ∈ segs, noColon x) : splitCI (blocksText segs) = [] :: segs := by
  cases segs with
  | nil => exact absurd rfl hne
  | cons s rest =>
    rw [show blocksText (s :: rest) = [] ++ markerU ++ (s ++ blocksText rest) from by
      simp [blocksText, markerBlock]]
    rw [splitCI_append_marker [] _ (by intro c hc; cases hc)]
    rw [splitCI_blocks_tail rest s (hall s (by simp)) (fun x hx => hall x (by simp [hx]))]

theorem isPrefixOf_append_self : ∀ (l t : Str), l.isPrefixOf (l ++ t) = true := by
  intro l
  induction l with
  | nil => intro t; simp [List.isPrefixOf]
  | cons c l' ih =>
    intro t
    simp only [List.cons_append, List.isPrefixOf_cons₂_self]
    exact ih t

theorem containsSub_of_isPrefixOf {n t : Str} (hne : n ≠ []) (h : n.isPrefixOf t = true) :
    containsSub n t = true := by
  cases t with
  | nil =>
    cases n with
    | nil => exact absurd rfl hne
    | cons c m => simp [List.isPrefixOf] at h
  | cons c t' =>
    unfold containsSub
    rw [h]
    rfl

theorem segmentsOf_blocks (segs : List Str) (hne : segs ≠ [])
    (hcol : ∀ x ∈ segs, noColon x) (hlen : ∀ x ∈ segs, 50 ≤ (pyStrip x).length) :
    segmentsOf (blocksText segs) = segs.map pyStrip := by
  have hcontains : containsSub markerU (blocksText segs) = true := by
    cases segs with
    | nil => exact absurd rfl hne
    | cons s rest =>
      rw [show blocksText (s :: rest) = markerU ++ (s ++ blocksText rest) from by
        simp [blocksText, markerBlock]]
      exact containsSub_of_isPrefixOf (by decide) (isPrefixOf_append_self _ _)
  unfold segmentsOf
  rw [hcontains, if_pos rfl, splitCI_blocks segs hne hcol]
  rw [List.map_cons, List.filter_cons]
  rw [show pyStrip [] = [] from rfl]
  simp only [List.isEmpty_nil, not_true_eq_false, decide_False, Bool.false_eq_true, if_false]
  apply List.filter_eq_self.mpr
  intro s hs
  obtain ⟨x, hx, rfl⟩ := List.mem_map.mp hs
  have := hlen x hx
  have hne2 : ¬ (pyStrip x).isEmpty := by
    rw [List.isEmpty_iff]
    intro hz
    rw [hz] at this
    simp at this
  simpa using hne2

/-- C6 (amended): the parser splits on the marker when present, strips the
pieces and drops empty ones, takes the first `max_items` segments and only
then discards those shorter than 50 code points.  For a text that is exactly
a concatenation of `k` marker-introduced blocks whose colon-free segments
strip to length ≥ 50, this yields exactly `min k max_items` drafts; in
general the marker count does not determine the draft count (text before the
first marker adds a segment, and short segments among the first `max_items`
consume slots). -/
theorem parser_marker_blocks_amended (segs : List Str) (maxItems : Nat)
    (hne : segs ≠ []) (hcol : ∀ s ∈ segs, noColon s)
    (hlen : ∀ s ∈ segs, 50 ≤ (pyStrip s).length) :
    draftSegments (blocksText segs) maxItems = (segs.map pyStrip).take maxItems
    ∧ (draftSegments (blocksText segs) maxItems).length = min segs.length maxItems
    ∧ ∀ l, buildItems 0 ((segmentsOf (blocksText segs)).take maxItems) = .ok l →
        l.length = min segs.length maxItems := by
  have hseg := segmentsOf_blocks segs hne hcol hlen
  have heq : draftSegments (blocksText segs) maxItems = (segs.map pyStrip).take maxItems := by
    unfold draftSegments
    rw [hseg]
    apply List.filter_eq_self.mpr
    intro s hs
    have hs2 : s ∈ segs.map pyStrip := List.take_subset _ _ hs
    obtain ⟨x, hx, rfl⟩ := List.mem_map.mp hs2
    simpa using hlen x hx
  have hlen2 : ((segs.map pyStrip).take maxItems).length = min segs.length maxItems := by
    rw [List.length_take, List.length_map]
    omega
  refine ⟨heq, by rw [heq]; exact hlen2, ?_⟩
  intro l hl
  have hbl := buildItems_ok_length _ 0 l hl
  have : ((segmentsOf (blocksText segs)).take maxItems).filter (fun s => 50 ≤ s.length)
      = draftSegments (blocksText segs) maxItems := rfl
  rw [this, heq, hlen2] at hbl
  exact hbl

theorem parser_marker_count_counterexample :
    countOcc markerU preambleText = 1
    ∧ (draftSegments preambleText 5).length = 2
    ∧ ¬ (draftSegments preambleText 5).length = min (countOcc markerU preambleText) 5
    ∧ draftSegments shortFirstText 1 = []
    ∧ ¬ draftSegments shortFirstText 1 = specDraftSegments shortFirstText 1 := by
  refine ⟨rfl, rfl, by decide, rfl, by decide⟩

theorem parser_marker_blocks_amended_witness :
    draftSegments (blocksText blockSegs) 5 = (blockSegs.map pyStrip).take 5
    ∧ (draftSegments (blocksText blockSegs) 5).length = min blockSegs.length 5 :=
  ⟨(parser_marker_blocks_amended blockSegs 5 (by decide) (by decide) (by decide)).1,
   (parser_marker_blocks_amended blockSegs 5 (by decide) (by decide) (by decide)).2.1⟩

theorem mkAIGeneratedNews_ok {title summary content : Str} {category : AINewsCategory}
    {tags : List Str} {source : NewsSource} {link : Str} {imageUrl : Option Str}
    {relevanceScore : ℚ} {item : AIGeneratedNews}
    (h : mkAIGeneratedNews title summary content category tags source link imageUrl
      relevanceScore = .ok item) :
    item.summary = summary ∧ item.content = content ∧ item.link = link
    ∧ item.relevanceScore = relevanceScore
    ∧ 10 ≤ title.length ∧ summary.length ≤ 500 ∧ content.length ≤ 2000 := by
  unfold mkAIGeneratedNews at h
  by_cases h1 : title.length < 10
  · rw [if_pos h1] at h; cases h
  rw [if_neg h1] at h
  by_cases h2 : 200 < title.length
  · rw [if_pos h2] at h; cases h
  rw [if_neg h2] at h
  by_cases h3 : hasClickbait title = true
  · rw [if_pos h3] at h; cases h
  rw [if_neg h3] at h
  by_cases h4 : summary.length < 50
  · rw [if_pos h4] at h; cases h
  rw [if_neg h4] at h
  by_cases h5 : 500 < summary.length
  · rw [if_pos h5] at h; cases h
  rw [if_neg h5] at h
  by_cases h6 : content.length < 100
  · rw [if_pos h6] at h; cases h
  rw [if_neg h6] at h
  by_cases h7 : 2000 < content.length
  · rw [if_pos h7] at h; cases h
  rw [if_neg h7] at h
  by_cases h8 : 10 < tags.length
  · rw [if_pos h8] at h; cases h
  rw [if_neg h8] at h
  by_cases h9 : (match source.credibilityScore with
      | some cs => decide (cs < 0) || decide (1 < cs)
      | none => false) = true
  · rw [if_pos h9] at h; cases h
  rw [if_neg h9] at h
  by_cases h10 : relevanceScore < 0 ∨ 1 < relevanceScore
  · rw [if_pos h10] at h; cases h
  rw [if_neg h10] at h
  cases h
  refine ⟨rfl, rfl, rfl, rfl, by omega, by omega, by omega⟩

/-- C7: for every draft the parser builds from a segment, the summary is at
most 500 code points (it was just truncated to 500); had the summary
exceeded 500, the content would be its truncation (a vacuous case); since it
does not, the content is the summary plus a separator plus the first 1500
code points of the segment, and the content of every successfully
constructed draft is at most 2000 code points (the schema's `max_length`
rejects longer ones at construction). -/
theorem draft_content_spec (i : Nat) (segment : Str) (item : AIGeneratedNews)
    (h : buildDraft i segment = .ok item) :
    item.summary.length ≤ 500
    ∧ (500 < item.summary.length → item.content = item.summary.take 500)
    ∧ (item.summary.length ≤ 500 → item.content = item.summary ++ [32] ++ segment.take 1500)
    ∧ item.content.length ≤ 2000 := by
  unfold buildDraft at h
  obtain ⟨hs, hc, _, _, _, h500, h2000⟩ := mkAIGeneratedNews_ok h
  have hcontent : draftContent segment = draftSummary segment ++ [32] ++ segment.take 1500 := by
    unfold draftContent
    rw [if_neg (by omega)]
  refine ⟨?_, ?_, ?_, ?_⟩
  · rw [hs]; exact h500
  · intro habs
    rw [hs] at habs
    omega
  · intro _
    rw [hc, hcontent, hs]
  · rw [hc]; exact h2000

theorem draft_content_spec_witness :
    c7draft.summary.length ≤ 500 ∧ c7draft.content.length ≤ 2000 :=
  ⟨(draft_content_spec 0 c7sample c7draft (by rfl)).1,
   (draft_content_spec 0 c7sample c7draft (by rfl)).2.2.2⟩

theorem mkNewsItem_ok {source title summary link imageUrl : Str} {category : NewsCategory}
    {userId : Str} {isPublic : Bool} {item : NewsItem}
    (h : mkNewsItem source title summary link imageUrl category userId isPublic = .ok item) :
    item.link = link ∧ item.userId = userId := by
  unfold mkNewsItem at h
  split_ifs at h <;> cases h
  exact ⟨rfl, rfl⟩

theorem convertAndStore_ok {st : RepoState} {ai : AIGeneratedNews} {userId : Str}
    {isPublic : Bool} {item : NewsItem} {st2 : RepoState}
    (h : convertAndStore st ai userId isPublic = .ok (item, st2)) :
    item.link = ai.link ∧ item.userId = userId ∧ st2 = st ++ [item] := by
  unfold convertAndStore createNewsUseCase at h
  by_cases he : existsByLinkAndUser st ai.link userId = true
  · rw [if_pos he] at h
    cases h
  · rw [if_neg he] at h
    cases hm : mkNewsItem ai.source.name ai.title ai.summary ai.link
        (ai.imageUrl.getD []) (categoryMapping ai.category) userId isPublic with
    | error e => rw [hm] at h; cases h
    | ok it =>
      rw [hm] at h
      cases h
      obtain ⟨hl, hu⟩ := mkNewsItem_ok hm
      exact ⟨hl, hu, rfl⟩

theorem convertAndStore_dup {st : RepoState} {ai : AIGeneratedNews} {userId : Str}
    {isPublic : Bool} (h : existsByLinkAndUser st ai.link userId = true) :
    convertAndStore st ai userId isPublic = .error (.duplicate ai.link userId) := by
  unfold convertAndStore createNewsUseCase
  rw [if_pos h]

theorem existsByLinkAndUser_append_self (st : RepoState) (item : NewsItem) :
    existsByLinkAndUser (st ++ [item]) item.link item.userId = true := by
  unfold existsByLinkAndUser
  rw [List.any_append]
  simp

theorem storeLoop_cons (userId : Str) (isPublic : Bool) (ai : AIGeneratedNews)
    (rest : List AIGeneratedNews) (st : RepoState) :
    storeLoop userId isPublic (ai :: rest) st
      = match convertAndStore st ai userId isPublic with
        | .ok (item, st2) =>
          (item :: (storeLoop userId isPublic rest st2).1,
            (storeLoop userId isPublic rest st2).2)
        | .error _ => storeLoop userId isPublic rest st := rfl

theorem storeLoop_length (userId : Str) (isPublic : Bool) :
    ∀ (cs : List AIGeneratedNews) (st : RepoState),
      (storeLoop userId isPublic cs st).1.length ≤ cs.length := by
  intro cs
  induction cs with
  | nil => intro st; exact Nat.le_refl 0
  | cons ai rest ih =>
    intro st
    rw [storeLoop_cons]
    cases h : convertAndStore st ai userId isPublic with
    | error e => exact Nat.le_succ_of_le (ih st)
    | ok p =>
      obtain ⟨item, st2⟩ := p
      simp only [List.length_cons]
      exact Nat.succ_le_succ (ih st2)

/-- C8: the persistence loop treats candidates independently — a failing
news-creation call (for example a duplicate link for this user) is caught
and that candidate skipped while the batch continues; the loop is a total
function (it never raises for per-item failures) returning exactly the
successfully persisted items, never more than the candidates; and
skip-on-duplicate is idempotent: storing the same candidate again from the
state produced by its first store persists nothing new and leaves the
repository unchanged. -/
theorem persistence_batch_spec (userId : Str) (isPublic : Bool) (c : AIGeneratedNews)
    (rest : List AIGeneratedNews) (st : RepoState) :
    (∀ cs : List AIGeneratedNews, (storeLoop userId isPublic cs st).1.length ≤ cs.length)
    ∧ (isErr (convertAndStore st c userId isPublic) = true →
        storeLoop userId isPublic (c :: rest) st = storeLoop userId isPublic rest st)
    ∧ (∀ item st2, convertAndStore st c userId isPublic = .ok (item, st2) →
        storeLoop userId isPublic (c :: rest) st
          = (item :: (storeLoop userId isPublic rest st2).1,
              (storeLoop userId isPublic rest st2).2))
    ∧ (∀ item st2, convertAndStore st c userId isPublic = .ok (item, st2) →
        storeLoop userId isPublic [c] st = ([item], st2)
        ∧ storeLoop userId isPublic [c] st2 = ([], st2)) := by
  refine ⟨fun cs => storeLoop_length userId isPublic cs st, ?_, ?_, ?_⟩
  · intro herr
    rw [storeLoop_cons]
    cases h : convertAndStore st c userId isPublic with
    | error e => rfl
    | ok p => rw [h] at herr; cases herr
  · intro item st2 h
    rw [storeLoop_cons, h]
  · intro item st2 h
    obtain ⟨hl, hu, hst⟩ := convertAndStore_ok h
    constructor
    · rw [storeLoop_cons, h]
      rfl
    · have hdup : existsByLinkAndUser st2 c.link userId = true := by
        rw [hst, ← hl, ← hu]
        exact existsByLinkAndUser_append_self st item
      rw [storeLoop_cons, convertAndStore_dup hdup]
      rfl

theorem persistence_batch_spec_witness :
    storeLoop (str "user-1") false [c8cand] [] = ([c8item], c8state)
    ∧ storeLoop (str "user-1") false [c8cand] c8state = ([], c8state) :=
  (persistence_batch_spec (str "user-1") false c8cand [] []).2.2.2 c8item c8state (by rfl)

/-- C9: constructing a news candidate whose title contains `"SHOCKING"` in
any letter case always fails at construction — the candidate is rejected
(an error is raised), never silently cleaned. -/
theorem shocking_title_always_rejected (title summary content : Str)
    (category : AINewsCategory) (tags : List Str) (source : NewsSource) (link : Str)
    (imageUrl : Option Str) (relevanceScore : ℚ)
    (h : containsSub (str "SHOCKING") (upperS title) = true) :
    isErr (mkAIGeneratedNews title summary content category tags source link imageUrl
      relevanceScore) = true := by
  have hcb : hasClickbait title = true := by
    unfold hasClickbait
    rw [List.any_eq_true]
    refine ⟨str "SHOCKING", by simp [clickbaitPatterns], ?_⟩
    rw [show upperS (str "SHOCKING") = str "SHOCKING" from by decide]
    exact h
  unfold mkAIGeneratedNews
  split_ifs <;> first | rfl | (exact absurd hcb (by assumption))

theorem shocking_title_always_rejected_witness :
    isErr (mkAIGeneratedNews (str "Shocking results in AI benchmarks today")
      (str "s") (str "c") .research [] perplexitySource (str "l") none (mkRat 8 10)) = true :=
  shocking_title_always_rejected (str "Shocking results in AI benchmarks today")
    (str "s") (str "c") .research [] perplexitySource (str "l") none (mkRat 8 10) (by decide)

/-- C10: constructing a news candidate whose title contains `"breaking"` in
any letter case — including inside a longer word such as "Groundbreaking" —
always fails construction: the blocklist check is an uppercased substring
match against `"BREAKING"` with no word-boundary condition. -/
theorem breaking_substring_always_rejected (title summary content : Str)
    (category : AINewsCategory) (tags : List Str) (source : NewsSource) (link : Str)
    (imageUrl : Option Str) (relevanceScore : ℚ)
    (h : containsSub (str "BREAKING") (upperS title) = true) :
    isErr (mkAIGeneratedNews title summary content category tags source link imageUrl
      relevanceScore) = true := by
  have hcb : hasClickbait title = true := by
    unfold hasClickbait
    rw [List.any_eq_true]
    refine ⟨str "BREAKING", by simp [clickbaitPatterns], ?_⟩
    rw [show upperS (str "BREAKING") = str "BREAKING" from by decide]
    exact h
  unfold mkAIGeneratedNews
  split_ifs <;> first | rfl | (exact absurd hcb (by assumption))

theorem breaking_substring_always_rejected_witness :
    isErr (mkAIGeneratedNews (str "Groundbreaking advances in AI research methods")
      (str "s") (str "c") .research [] perplexitySource (str "l") none (mkRat 8 10)) = true :=
  breaking_substring_always_rejected (str "Groundbreaking advances in AI research methods")
    (str "s") (str "c") .research [] perplexitySource (str "l") none (mkRat 8 10) (by decide)

end AINews
